import Mathlib

/-!
Verification development for the `corpnet_irs` repository (files
`src/main.py` and `src/main_FAST.py`): a shallow embedding of the
data-normalization logic of the IRS EIN form-filling service, together
with theorems checking the repository specification against it.

Python strings are modelled through their character lists; `str.strip`,
`str.upper`, `str.lower`, slicing and `in` are embedded as executable
functions on `List Char`.
-/

namespace CorpnetIrs

/-- Python `str.strip()`: remove leading and trailing whitespace. -/
def pyStrip (s : String) : String :=
  ⟨(((s.data.dropWhile Char.isWhitespace).reverse).dropWhile Char.isWhitespace).reverse⟩

/-- Python `str.upper()` (character-wise, ASCII as in `Char.toUpper`). -/
def pyUpper (s : String) : String := ⟨s.data.map Char.toUpper⟩

/-- Python `str.lower()` (character-wise, ASCII as in `Char.toLower`). -/
def pyLower (s : String) : String := ⟨s.data.map Char.toLower⟩

/-- Python slice `s[:-n]` for `n > 0`: all characters but the last `n`
(empty when `n ≥ len(s)`). -/
def pyDropRight (s : String) (n : Nat) : String := ⟨s.data.take (s.data.length - n)⟩

/-- Python `s.endswith(suffix)`. -/
def pyEndsWith (s suff : String) : Bool := suff.data.isSuffixOf s.data

/-- Python substring containment `sub in s` on character lists. -/
def containsSub (sub : List Char) : List Char → Bool
  | [] => sub.isEmpty
  | c :: rest => sub.isPrefixOf (c :: rest) || containsSub sub rest

/-- Python `sub in s` for strings. -/
def pyContains (s sub : String) : Bool := containsSub sub.data s.data

/-- The static name→code table `state_mapping` (src/main.py lines 221-273;
src/main_FAST.py elides the middle entries behind a
"rest of state_mapping as in original" comment). -/
def state_mapping : List (String × String) := [
  ("ALABAMA", "AL"), ("AL", "AL"), ("ALABAMA (AL)", "AL"),
  ("ALASKA", "AK"), ("AK", "AK"), ("ALASKA (AK)", "AK"),
  ("ARIZONA", "AZ"), ("AZ", "AZ"), ("ARIZONA (AZ)", "AZ"),
  ("ARKANSAS", "AR"), ("AR", "AR"), ("ARKANSAS (AR)", "AR"),
  ("CALIFORNIA", "CA"), ("CA", "CA"), ("CALIFORNIA (CA)", "CA"),
  ("COLORADO", "CO"), ("CO", "CO"), ("COLORADO (CO)", "CO"),
  ("CONNECTICUT", "CT"), ("CT", "CT"), ("CONNECTICUT (CT)", "CT"),
  ("DELAWARE", "DE"), ("DE", "DE"), ("DELAWARE (DE)", "DE"),
  ("DISTRICT OF COLUMBIA", "DC"), ("DC", "DC"), ("DISTRICT OF COLUMBIA (DC)", "DC"),
  ("FLORIDA", "FL"), ("FL", "FL"), ("FLORIDA (FL)", "FL"),
  ("GEORGIA", "GA"), ("GA", "GA"), ("GEORGIA (GA)", "GA"),
  ("HAWAII", "HI"), ("HI", "HI"), ("HAWAII (HI)", "HI"),
  ("IDAHO", "ID"), ("ID", "ID"), ("IDAHO (ID)", "ID"),
  ("ILLINOIS", "IL"), ("IL", "IL"), ("ILLINOIS (IL)", "IL"),
  ("INDIANA", "IN"), ("IN", "IN"), ("INDIANA (IN)", "IN"),
  ("IOWA", "IA"), ("IA", "IA"), ("IOWA (IA)", "IA"),
  ("KANSAS", "KS"), ("KS", "KS"), ("KANSAS (KS)", "KS"),
  ("KENTUCKY", "KY"), ("KY", "KY"), ("KENTUCKY (KY)", "KY"),
  ("LOUISIANA", "LA"), ("LA", "LA"), ("LOUISIANA (LA)", "LA"),
  ("MAINE", "ME"), ("ME", "ME"), ("MAINE (ME)", "ME"),
  ("MARYLAND", "MD"), ("MD", "MD"), ("MARYLAND (MD)", "MD"),
  ("MASSACHUSETTS", "MA"), ("MA", "MA"), ("MASSACHUSETTS (MA)", "MA"),
  ("MICHIGAN", "MI"), ("MI", "MI"), ("MICHIGAN (MI)", "MI"),
  ("MINNESOTA", "MN"), ("MN", "MN"), ("MINNESOTA (MN)", "MN"),
  ("MISSISSIPPI", "MS"), ("MS", "MS"), ("MISSISSIPPI (MS)", "MS"),
  ("MISSOURI", "MO"), ("MO", "MO"), ("MISSOURI (MO)", "MO"),
  ("MONTANA", "MT"), ("MT", "MT"), ("MONTANA (MT)", "MT"),
  ("NEBRASKA", "NE"), ("NE", "NE"), ("NEBRASKA (NE)", "NE"),
  ("NEVADA", "NV"), ("NV", "NV"), ("NEVADA (NV)", "NV"),
  ("NEW HAMPSHIRE", "NH"), ("NH", "NH"), ("NEW HAMPSHIRE (NH)", "NH"),
  ("NEW JERSEY", "NJ"), ("NJ", "NJ"), ("NEW JERSEY (NJ)", "NJ"),
  ("NEW MEXICO", "NM"), ("NM", "NM"), ("NEW MEXICO (NM)", "NM"),
  ("NEW YORK", "NY"), ("NY", "NY"), ("NEW YORK (NY)", "NY"),
  ("NORTH CAROLINA", "NC"), ("NC", "NC"), ("NORTH CAROLINA (NC)", "NC"),
  ("NORTH DAKOTA", "ND"), ("ND", "ND"), ("NORTH DAKOTA (ND)", "ND"),
  ("OHIO", "OH"), ("OH", "OH"), ("OHIO (OH)", "OH"),
  ("OKLAHOMA", "OK"), ("OK", "OK"), ("OKLAHOMA (OK)", "OK"),
  ("OREGON", "OR"), ("OR", "OR"), ("OREGON (OR)", "OR"),
  ("PENNSYLVANIA", "PA"), ("PA", "PA"), ("PENNSYLVANIA (PA)", "PA"),
  ("RHODE ISLAND", "RI"), ("RI", "RI"), ("RHODE ISLAND (RI)", "RI"),
  ("SOUTH CAROLINA", "SC"), ("SC", "SC"), ("SOUTH CAROLINA (SC)", "SC"),
  ("SOUTH DAKOTA", "SD"), ("SD", "SD"), ("SOUTH DAKOTA (SD)", "SD"),
  ("TENNESSEE", "TN"), ("TN", "TN"), ("TENNESSEE (TN)", "TN"),
  ("TEXAS", "TX"), ("TX", "TX"), ("TEXAS (TX)", "TX"),
  ("UTAH", "UT"), ("UT", "UT"), ("UTAH (UT)", "UT"),
  ("VERMONT", "VT"), ("VT", "VT"), ("VERMONT (VT)", "VT"),
  ("VIRGINIA", "VA"), ("VA", "VA"), ("VIRGINIA (VA)", "VA"),
  ("WASHINGTON", "WA"), ("WA", "WA"), ("WASHINGTON (WA)", "WA"),
  ("WEST VIRGINIA", "WV"), ("WV", "WV"), ("WEST VIRGINIA (WV)", "WV"),
  ("WISCONSIN", "WI"), ("WI", "WI"), ("WISCONSIN (WI)", "WI"),
  ("WYOMING", "WY"), ("WY", "WY"), ("WYOMING (WY)", "WY")]

/-- Python `state_mapping.get(k)`: first (only) binding of `k`. -/
def stateLookup (k : String) : Option String :=
  (state_mapping.find? (fun p => p.1 == k)).map (·.2)

/-- Try to match the regex `\s*\([^)]+\)` at the head of the character
list; on success return the remainder after the match. -/
def matchParenAt (l : List Char) : Option (List Char) :=
  match l.dropWhile Char.isWhitespace with
  | '(' :: l2 =>
      if (l2.takeWhile (· ≠ ')')).isEmpty then none
      else
        match l2.dropWhile (· ≠ ')') with
        | ')' :: l3 => some l3
        | _ => none
  | _ => none

/-- Left-to-right scan deleting every match of `\s*\([^)]+\)`
(Python `re.sub(r'\s*\([^)]+\)', '', s)`). The `Nat` argument is
recursion fuel; each step consumes at least one character, so fuel equal
to the list length always suffices. -/
def stripParenAux : Nat → List Char → List Char
  | 0, l => l
  | _ + 1, [] => []
  | fuel + 1, c :: rest =>
      match matchParenAt (c :: rest) with
      | some l3 => stripParenAux fuel l3
      | none => c :: stripParenAux fuel rest

/-- `re.sub(r'\s*\([^)]+\)', '', s).strip()` (src/main.py line 292,
src/main_FAST.py line 307): drop parenthetical suffixes and trim. -/
def stripParen (s : String) : String :=
  pyStrip ⟨stripParenAux s.data.length s.data⟩

/-- The normalization chain shared verbatim by `select_state` in both
variants (src/main.py lines 289-297, src/main_FAST.py lines 304-311),
applied to the already uppercased-and-trimmed input `u`: accept `u`
directly when it is one of the select control's option values
(`avail`); otherwise consult `state_mapping` with `u` and then with `u`
minus its parenthetical suffix; a hit that is itself an option value is
the result, and anything else is a failure (`none`). -/
def select_state_core (avail : List String) (u : String) : Option String :=
  if u ∈ avail then some u
  else
    match (stateLookup u).orElse (fun _ => stateLookup (stripParen u)) with
    | some v => if v ∈ avail then some v else none
    | none => none

/-- The state normalization of `select_state` in src/main.py
(lines 275-297): a missing/empty input is first replaced by `"TX"`
(line 276-278), and a failure of the lookup chain falls back to `"TX"`
(lines 295-297). -/
def select_state_value (avail : List String) (physical_state : Option String) : String :=
  let ps := match physical_state with
            | none => "TX"
            | some s => if s = "" then "TX" else s
  match select_state_core avail (pyStrip (pyUpper ps)) with
  | some v => v
  | none => "TX"

/-- The state normalization of `select_state` in src/main_FAST.py
(lines 292-311): a missing/empty input or a failure of the lookup chain
raises `ValueError` (modelled as `none`). -/
def select_state_value_fast (avail : List String) (physical_state : Option String) :
    Option String :=
  match physical_state with
  | none => none
  | some s =>
    if s = "" then none
    else select_state_core avail (pyStrip (pyUpper s))

/-! ### Legal-business-name cleaning -/

/-- The corporate-suffix tokens stripped from the end of the legal
business name (src/main.py line 599, src/main_FAST.py line 569). -/
def endings_to_remove : List String := ["Corp", "Inc", "LLC", "LC", "PLLC", "PA"]

/-- One iteration of the suffix loop (src/main.py lines 600-602):
`if cleaned.upper().endswith(ending.upper()): cleaned = cleaned[:-(len(ending))].strip()`. -/
def stripEnding (cur : String) (ending : String) : String :=
  if pyEndsWith (pyUpper cur) (pyUpper ending) then pyStrip (pyDropRight cur ending.length)
  else cur

/-- The suffix loop of src/main.py lines 598-602 / src/main_FAST.py
lines 568-572: every ending is tried in order, each against the value
left by the previous iterations. -/
def stripEndings (name : String) : String :=
  endings_to_remove.foldl stripEnding (pyStrip name)

/-- A character kept by `re.sub(r'[^\w\s\-&]', '', ...)`: word
character (alphanumeric or underscore), whitespace, hyphen or
ampersand. -/
def keepChar (c : Char) : Bool :=
  c.isAlphanum || c = '_' || c.isWhitespace || c = '-' || c = '&'

/-- `re.sub(r'[^\w\s\-&]', '', s)` (src/main.py line 603 /
src/main_FAST.py line 573). -/
def removeDisallowed (s : String) : String := ⟨s.data.filter keepChar⟩

/-- The whole legal-business-name cleaning step (src/main.py lines
597-603 / src/main_FAST.py lines 567-573). -/
def cleanLegalName (name : String) : String := removeDisallowed (stripEndings name)

/-- Modelled from the spec: §4.5 reads "legal name has known
corporate-suffix tokens (Corp, Inc, LLC, LC, PLLC, PA) stripped from
the end (case-insensitive, first match only)". This function strips
only the first matching token and stops, for comparison with the code's
loop (src/main.py lines 598-602), which keeps testing the remaining
tokens against the already-stripped name. -/
def stripFirstMatchGo : List String → String → String
  | [], cur => cur
  | e :: rest, cur =>
      if pyEndsWith (pyUpper cur) (pyUpper e) then pyStrip (pyDropRight cur e.length)
      else stripFirstMatchGo rest cur

/-- Modelled from the spec: the spec's "first match only" reading of the
legal-name cleaning (see `stripFirstMatchGo`). -/
def cleanLegalNameSpec (name : String) : String :=
  removeDisallowed (stripFirstMatchGo endings_to_remove (pyStrip name))

/-! ### Formation-date parsing -/

/-- Value of a non-empty all-digit character list. -/
def decDigits : List Char → Option Nat
  | [] => none
  | l =>
      if l.all Char.isDigit then some (l.foldl (fun acc c => 10 * acc + (c.toNat - 48)) 0)
      else none

/-- Gregorian leap year, as validated by `datetime`. -/
def isLeapYear (y : Nat) : Bool := (y % 4 == 0 && y % 100 != 0) || y % 400 == 0

/-- Days in a month, as validated by `datetime`. -/
def daysInMonth (y m : Nat) : Nat :=
  if m == 2 then (if isLeapYear y then 29 else 28)
  else if m == 4 || m == 6 || m == 9 || m == 11 then 30
  else 31

/-- A parsed calendar date (the `datetime` fields the code uses). -/
structure PDate where
  year : Nat
  month : Nat
  day : Nat
deriving DecidableEq, Repr

/-- Assemble a `datetime.strptime` result from year/month/day digit
groups: `%Y` is exactly four digits, `%m` and `%d` one or two digits,
and `datetime` validation requires year ≥ 1, month 1..12 and a day
within the month. -/
def mkPDate (ys ms ds : List Char) : Option PDate :=
  match decDigits ys, decDigits ms, decDigits ds with
  | some y, some m, some d =>
      if ys.length = 4 ∧ ms.length ≤ 2 ∧ ds.length ≤ 2
          ∧ 1 ≤ y ∧ 1 ≤ m ∧ m ≤ 12 ∧ 1 ≤ d ∧ d ≤ daysInMonth y m
      then some ⟨y, m, d⟩ else none
  | _, _, _ => none

/-- Split a character list at every occurrence of `sep`. -/
def splitOnChar (sep : Char) : List Char → List (List Char)
  | [] => [[]]
  | c :: rest =>
      let r := splitOnChar sep rest
      if c = sep then [] :: r
      else
        match r with
        | a :: as => (c :: a) :: as
        | [] => [[c]]

/-- `datetime.strptime(s, "%Y-%m-%d")` over the whole string. -/
def parseYMDdash (s : String) : Option PDate :=
  match splitOnChar '-' s.data with
  | [ys, ms, ds] => mkPDate ys ms ds
  | _ => none

/-- `datetime.strptime(s, "%m/%d/%Y")` over the whole string. -/
def parseMDYslash (s : String) : Option PDate :=
  match splitOnChar '/' s.data with
  | [ms, ds, ys] => mkPDate ys ms ds
  | _ => none

/-- `datetime.strptime(s, "%Y/%m/%d")` over the whole string. -/
def parseYMDslash (s : String) : Option PDate :=
  match splitOnChar '/' s.data with
  | [ys, ms, ds] => mkPDate ys ms ds
  | _ => none

/-- The format loop of src/main.py lines 628-636 / src/main_FAST.py
lines 598-606: try `"%Y-%m-%d"`, `"%m/%d/%Y"`, `"%Y/%m/%d"` in order on
the stripped input; the first format that parses wins. -/
def parseFormationDate (s : String) : Option PDate :=
  let t := pyStrip s
  (parseYMDdash t).orElse (fun _ => (parseMDYslash t).orElse (fun _ => parseYMDslash t))

/-- Outcome of the formation-date page step of `run_irs_ein_application`.
`set m y` means the month select and year input were set; all parse and
control failures inside the step's try-block are caught by its
`except Exception` handler, after which the wizard continues to the
next `Continue` click (`skippedAndContinued`); `abortedRun` would mean
an exception escaped to the function-level handler that fails the whole
run, which the step's own handler prevents. -/
inductive DateStepOutcome where
  | set (month year : Nat)
  | skippedAndContinued
  | abortedRun
deriving DecidableEq, Repr

/-- Formation-date step of src/main.py lines 626-662: an unparseable
input is replaced by `datetime.strptime("2024-06-24", "%Y-%m-%d")`
before the month/year controls are set. -/
def formationDateStepMain (formation_date : String) : DateStepOutcome :=
  match parseFormationDate formation_date with
  | some d => .set d.month d.year
  | none => .set 6 2024

/-- Formation-date step of src/main_FAST.py lines 596-631: an
unparseable input raises `ValueError` inside the step's try-block; the
`except Exception` handler at line 630 logs it and the run continues
with the month/year controls untouched. -/
def formationDateStepFast (formation_date : String) : DateStepOutcome :=
  match parseFormationDate formation_date with
  | some d => .set d.month d.year
  | none => .skippedAndContinued

/-! ### JSON values and `flatten_json` -/

/-- JSON values as produced by `json.loads`. -/
inductive Json where
  | null
  | bool (b : Bool)
  | num (n : Int)
  | str (s : String)
  | arr (elems : List Json)
  | obj (fields : List (String × Json))

mutual

/-- Size of a JSON value, counting only structure (not strings), used
as the termination measure of the flattening recursion. -/
def jsize : Json → Nat
  | .arr xs => 1 + lsize xs
  | .obj fs => 1 + fsize fs
  | _ => 1

/-- Size of an object's field list. -/
def fsize : List (String × Json) → Nat
  | [] => 0
  | (_, v) :: rest => 1 + jsize v + fsize rest

/-- Size of an array's element list. -/
def lsize : List Json → Nat
  | [] => 0
  | x :: xs => 1 + jsize x + lsize xs

end

/-- `key.lower().replace(' ', '_')` (src/main_FAST.py line 232). -/
def normKey (k : String) : String :=
  ⟨(k.data.map Char.toLower).map (fun c => if c = ' ' then '_' else c)⟩

mutual

/-- `flatten_json` (src/main_FAST.py lines 229-240) on an object's
field list: each key is normalized and appended to the parent key with
`sep`; object values recurse with the extended parent key; list values
go through the `enumerate` loop; anything else is emitted. -/
def flattenJson (fields : List (String × Json)) (parent sep : String) :
    List (String × Json) :=
  match fields with
  | [] => []
  | (k, v) :: rest =>
      let nk := if parent = "" then normKey k else parent ++ sep ++ normKey k
      (match v with
       | .obj fs => flattenJson fs nk sep
       | .arr xs => flattenArr nk sep 0 xs
       | x => [(nk, x)])
      ++ flattenJson rest parent sep
termination_by fsize fields
decreasing_by
  all_goals simp [fsize, jsize, lsize]
  all_goals omega

/-- The `enumerate` loop of `flatten_json`'s list case (src/main_FAST.py
lines 236-237): element `i` is wrapped in the singleton dict
`{f"{new_key}_{i}": item}` and flattened with an empty parent key. -/
def flattenArr (nk sep : String) (i : Nat) : List Json → List (String × Json)
  | [] => []
  | x :: xs =>
      flattenJson [(nk ++ "_" ++ toString i, x)] "" sep ++ flattenArr nk sep (i + 1) xs
termination_by xs => lsize xs + 1
decreasing_by
  all_goals simp [fsize, jsize, lsize]
  all_goals omega

end

/-- The possible shapes of the optional `json_summary` input:
absent/empty (Python falsy), a string rejected by `json.loads`, or
parsed JSON. -/
inductive JsonInput where
  | missing
  | malformed
  | parsed (j : Json)

/-- `parse_json_summary` (src/main_FAST.py lines 242-254): falsy input
and `json.loads` failures give `{}`; a parsed object is flattened with
empty parent key and separator `'_'`; a parsed non-object raises inside
the `try` (at `data.items()`) and the generic handler likewise gives
`{}`. The result dict is modelled by its item list. -/
def parse_json_summary : JsonInput → List (String × Json)
  | .missing => []
  | .malformed => []
  | .parsed (.obj fields) => flattenJson fields "" "_"
  | .parsed _ => []

/-! ### `parse_summary_html` -/

/-- `s.replace(old, new)` for non-empty `old`: replace every
non-overlapping occurrence left to right. The fuel argument is the
length of the list; each step consumes at least one character. -/
def replaceSubAux (old new : List Char) : Nat → List Char → List Char
  | 0, l => l
  | _ + 1, [] => []
  | fuel + 1, c :: rest =>
      if old.isPrefixOf (c :: rest) then
        new ++ replaceSubAux old new fuel ((c :: rest).drop old.length)
      else c :: replaceSubAux old new fuel rest

/-- Python `s.replace(old, new)` (for the non-empty `old` used here). -/
def pyReplace (s old new : String) : String :=
  ⟨replaceSubAux old.data new.data s.data.length s.data⟩

/-- An element of the BeautifulSoup parse of an HTML fragment, as
consumed by `parse_summary_html`: tag name, `style` attribute (if any),
and its `get_text(strip=True)` text. BeautifulSoup is an external
library; the parsed document is passed alongside the raw string. -/
structure HtmlElement where
  tag : String
  style : Option String
  text : String
deriving DecidableEq, Repr

/-- `parse_summary_html` (src/main_FAST.py lines 111-129) on an input
whose BeautifulSoup parse is `doc`: falsy input returns `None`; an
input without `'<'` returns `{'Summary': input.strip()}`; otherwise
every `div` whose `style` matches the regex `padding-left: 5px;` (a
search anywhere in the attribute) and whose text contains a colon
contributes a pair: key = text before the first colon with the
substring `"strong"` removed and stripped, value = text after the first
colon, stripped. -/
def parse_summary_html (html_content : Option String) (doc : List HtmlElement) :
    Option (List (String × String)) :=
  match html_content with
  | none => none
  | some content =>
    if content = "" then none
    else if !(pyContains content "<") then some [("Summary", pyStrip content)]
    else some
      ((doc.filter (fun e => e.tag == "div"
          && (match e.style with
              | some st => pyContains st "padding-left: 5px;"
              | none => false))).filterMap (fun e =>
        if pyContains e.text ":" then
          some (pyStrip (pyReplace ⟨e.text.data.takeWhile (· ≠ ':')⟩ "strong" ""),
                pyStrip ⟨(e.text.data.dropWhile (· ≠ ':')).tail⟩)
        else none))

/-! ### `determine_number_of_members` -/

/-- Split a character list at every occurrence of the non-empty
separator `sep` (Python `s.split(sep)`); fuel is the list length. -/
def splitOnSubAux (sep : List Char) : Nat → List Char → List (List Char)
  | 0, l => [l]
  | _ + 1, [] => [[]]
  | fuel + 1, c :: rest =>
      if sep.isPrefixOf (c :: rest) then
        [] :: splitOnSubAux sep fuel ((c :: rest).drop sep.length)
      else
        match splitOnSubAux sep fuel rest with
        | a :: as => (c :: a) :: as
        | [] => [[c]]

/-- Python `s.split(sep)[-1]`: the part after the last occurrence of
`sep` (the whole string when `sep` is absent). -/
def afterLastSep (sep l : List Char) : List Char :=
  (splitOnSubAux sep l.length l).getLastD []

/-- Python `s.split()[0]`: the first whitespace-separated token, or
`none` (an `IndexError`) when there is none. -/
def firstWsToken (l : List Char) : Option (List Char) :=
  let rest := l.dropWhile Char.isWhitespace
  if rest.isEmpty then none else some (rest.takeWhile (fun c => !c.isWhitespace))

/-- The key test and extraction of `search_responsible_parties`
(src/main.py lines 159-161): a key whose lowercase form contains
`"responsible party-"` contributes
`key.lower().split("responsible party-")[-1].split()[0]`; `none` is the
`IndexError` when nothing follows the separator. -/
def partyNumOfKey (k : String) : Option (List String) :=
  if pyContains (pyLower k) "responsible party-" then
    match firstWsToken (afterLastSep "responsible party-".data (pyLower k).data) with
    | some tok => some [⟨tok⟩]
    | none => none
  else some []

mutual

/-- `search_responsible_parties` (src/main.py lines 156-166): walk the
JSON value collecting party-number strings; `none` models an exception
escaping the walk (caught by the outer handler). -/
def collectParties : Json → Option (List String)
  | .obj fields => collectPartiesFields fields
  | .arr xs => collectPartiesList xs
  | _ => some []

/-- Walk of an object's fields: test each key, then recurse into the
value (non-dict, non-list values contribute nothing). -/
def collectPartiesFields : List (String × Json) → Option (List String)
  | [] => some []
  | (k, v) :: rest => do
      let here ← partyNumOfKey k
      let inner ← collectParties v
      let there ← collectPartiesFields rest
      some (here ++ inner ++ there)

/-- Walk of a list's elements. -/
def collectPartiesList : List Json → Option (List String)
  | [] => some []
  | x :: xs => do
      let a ← collectParties x
      let b ← collectPartiesList xs
      some (a ++ b)

end

mutual

/-- Whether the JSON value contains, anywhere, an object key whose
lowercase form contains `"responsible party-"` (the claim's
"key embedding" condition, used to state C10). -/
def hasRespKey : Json → Bool
  | .obj fields => hasRespKeyFields fields
  | .arr xs => hasRespKeyList xs
  | _ => false

/-- `hasRespKey` on an object's fields. -/
def hasRespKeyFields : List (String × Json) → Bool
  | [] => false
  | (k, v) :: rest =>
      pyContains (pyLower k) "responsible party-" || hasRespKey v || hasRespKeyFields rest

/-- `hasRespKey` on a list's elements. -/
def hasRespKeyList : List Json → Bool
  | [] => false
  | x :: xs => hasRespKey x || hasRespKeyList xs

end

/-- Python `int(s)` on a token: optional sign followed by decimal
digits. -/
def pyInt (s : String) : Option Int :=
  match s.data with
  | '-' :: rest =>
      if rest ≠ [] ∧ rest.all Char.isDigit then
        some (-(rest.foldl (fun acc c => 10 * acc + (c.toNat - 48)) 0 : Nat)) else none
  | '+' :: rest =>
      if rest ≠ [] ∧ rest.all Char.isDigit then
        some ((rest.foldl (fun acc c => 10 * acc + (c.toNat - 48)) 0 : Nat)) else none
  | l =>
      if l ≠ [] ∧ l.all Char.isDigit then
        some ((l.foldl (fun acc c => 10 * acc + (c.toNat - 48)) 0 : Nat)) else none

/-- `max(int(num) for num in parties)`: every element must convert
(`none` models the `ValueError` from `int`). -/
def maxIntOfList : List String → Option Int
  | [] => none
  | [s] => pyInt s
  | s :: rest => do
      let a ← pyInt s
      let b ← maxIntOfList rest
      some (max a b)

/-- `determine_number_of_members` (src/main.py lines 147-186): falsy or
unparseable input gives 2; a walk that raises gives 2 (generic
handler); no parties found gives 2; a maximum outside 1..4 gives 2;
otherwise the maximum party number. -/
def determine_number_of_members : JsonInput → Int
  | .missing => 2
  | .malformed => 2
  | .parsed j =>
      match collectParties j with
      | none => 2
      | some [] => 2
      | some (p :: ps) =>
          match maxIntOfList (p :: ps) with
          | none => 2
          | some m => if 1 ≤ m ∧ m ≤ 4 then m else 2

/-! ### Confirmation map and polling loop -/

/-- Python dict assignment `confirmation_status[formId] = proceed`
(src/main.py line 844): overwrite the existing binding, else append. -/
def writeConfirmation : List (String × Bool) → String → Bool → List (String × Bool)
  | [], formId, proceed => [(formId, proceed)]
  | p :: rest, formId, proceed =>
      if p.1 = formId then (formId, proceed) :: rest
      else p :: writeConfirmation rest formId proceed

/-- The membership test and read
`data.record_id in confirmation_status` /
`confirmation_status.pop(data.record_id)` (src/main.py lines 772-773). -/
def readConfirmation (store : List (String × Bool)) (formId : String) : Option Bool :=
  (store.find? (fun p => p.1 == formId)).map (·.2)

/-- A sequence of `/confirmation-callback` requests applied in order. -/
def applyWrites (store : List (String × Bool)) (ws : List (String × Bool)) :
    List (String × Bool) :=
  ws.foldl (fun st w => writeConfirmation st w.1 w.2) store

/-- The proceed value of the most recent write for `formId` in `ws`. -/
def lastWriteFor (ws : List (String × Bool)) (formId : String) : Option Bool :=
  (ws.reverse.find? (fun w => w.1 == formId)).map (·.2)

/-- `timeout = 300` (src/main.py line 767). -/
def confirmationTimeout : Nat := 300

/-- `interval = 5` (src/main.py line 768). -/
def confirmationInterval : Nat := 5

/-- The polling loop of src/main.py lines 771-780: `poll n` is the map
lookup made at the iteration with `elapsed = 5 * n`; `fuel` counts the
remaining iterations of `while elapsed < timeout`. -/
def waitLoop (poll : Nat → Option Bool) : Nat → Nat → Option Bool
  | _, 0 => none
  | tick, fuel + 1 =>
      match poll tick with
      | some b => some b
      | none => waitLoop poll (tick + 1) fuel

/-- The wait for the Salesforce confirmation callback (src/main.py
lines 766-780): poll every 5 seconds inside a 300-second deadline;
`none` is the HTTP 504 timeout path. -/
def waitForConfirmation (poll : Nat → Option Bool) : Option Bool :=
  waitLoop poll 0 (confirmationTimeout / confirmationInterval)

/-! ### `CaseData` and the field-resolution prelude -/

/-- The request model `CaseData` (src/main.py lines 38-58): `record_id`
is required, everything else optional. -/
structure CaseData where
  record_id : String
  entity_name : Option String := none
  entity_type : Option String := none
  formation_date : Option String := none
  business_category : Option String := none
  business_description : Option String := none
  business_address_1 : Option String := none
  entity_state : Option String := none
  business_address_2 : Option String := none
  city : Option String := none
  zip_code : Option String := none
  quarter_of_first_payroll : Option String := none
  entity_state_record_state : Option String := none
  json_summary : Option String := none
  summary_raw : Option String := none
  case_contact_name : Option String := none
  ssn_decrypted : Option String := none
  case_contact_first_name : Option String := none
  case_contact_last_name : Option String := none
  case_contact_phone : Option String := none

/-- Python `x or default` for an optional string field: `None` and `""`
are falsy. -/
def orDefault (x : Option String) (d : String) : String :=
  match x with
  | none => d
  | some s => if s = "" then d else s

/-- Python slice `s[-n:]`. -/
def pyTakeRight (s : String) (n : Nat) : String := ⟨s.data.drop (s.data.length - n)⟩

/-- Python slice `s[:n]`. -/
def pyTake (s : String) (n : Nat) : String := ⟨s.data.take n⟩

/-- Python slice `s[a:b]` (for `a ≤ b`). -/
def pySlice (s : String) (a b : Nat) : String := ⟨(s.data.take b).drop a⟩

/-- The values produced by the data-driven field resolutions of
`run_irs_ein_application` in src/main.py. -/
structure ResolvedFields where
  first_name : String
  last_name : String
  ssn_decrypted : String
  ssn_last_four : String
  ssn_first_three : String
  ssn_middle_two : String
  entity_type : String
  quarter_of_first_payroll : String
  formation_date : String
  business_category : String
  business_description : String
  legal_business_name : String
  physical_street1 : String
  physical_street2 : String
  physical_city : String
  physical_state : String
  physical_zipcode : String
  select_state_value : String
  mailing_street1 : String
  mailing_street2 : String
  mailing_city : String
  mailing_state : String
  mailing_zipcode : String
  phone_number : String
deriving DecidableEq, Repr

/-- The field-resolution prelude of `run_irs_ein_application`
(src/main.py lines 356-398), together with the function's other purely
data-driven resolutions: the SSN splitting of lines 528-536 and the
phone normalization of lines 560-564. `Except.error` models the
`HTTPException(400)` raises of lines 368-384. -/
def resolveFields (d : CaseData) : Except String ResolvedFields :=
  let first_name := orDefault d.case_contact_first_name "Rob"
  let last_name := orDefault d.case_contact_last_name "Chuchla"
  let ssn_decrypted := orDefault d.ssn_decrypted "123456789"
  let ssn_last_four :=
    if ssn_decrypted ≠ "" ∧ 4 ≤ ssn_decrypted.length then pyTakeRight ssn_decrypted 4
    else "1234"
  let ssn_first_three :=
    if 3 ≤ ssn_decrypted.length then pyTake ssn_decrypted 3 else "123"
  let ssn_middle_two :=
    if 5 ≤ ssn_decrypted.length then pySlice ssn_decrypted 3 5 else "45"
  let entity_type := orDefault d.entity_type "Limited Liability Company (LLC)"
  let quarter_of_first_payroll := orDefault d.quarter_of_first_payroll "03/31/2025"
  let formation_date := orDefault d.formation_date "2024-06-24"
  let business_category := orDefault d.business_category "Finance"
  let business_description := orDefault d.business_description "Financial services"
  let legal_business_name := orDefault d.entity_name "Lane Four Capital Partners LLC"
  if legal_business_name = "" then .error "entity_name is required" else
  let physical_street1 := orDefault d.business_address_1 "3315 Cherry Ln"
  if physical_street1 = "" then .error "business_address_1 is required" else
  let physical_street2 := orDefault d.business_address_2 ""
  let physical_city := orDefault d.city "Austin"
  if physical_city = "" then .error "city is required" else
  let physical_state := orDefault d.entity_state "TX"
  let physical_zipcode := orDefault d.zip_code "78703"
  if physical_zipcode = "" then .error "zip_code is required" else
  let select_state_value :=
    orDefault d.entity_state_record_state
      (if physical_state = "" then "TX" else physical_state)
  let phone0 := orDefault d.case_contact_phone "2812173123"
  let phone1 : String := ⟨phone0.data.filter Char.isDigit⟩
  let phone_number := if phone1.length ≠ 10 then "2812173123" else phone1
  .ok {
    first_name := first_name, last_name := last_name,
    ssn_decrypted := ssn_decrypted, ssn_last_four := ssn_last_four,
    ssn_first_three := ssn_first_three, ssn_middle_two := ssn_middle_two,
    entity_type := entity_type, quarter_of_first_payroll := quarter_of_first_payroll,
    formation_date := formation_date, business_category := business_category,
    business_description := business_description,
    legal_business_name := legal_business_name,
    physical_street1 := physical_street1, physical_street2 := physical_street2,
    physical_city := physical_city, physical_state := physical_state,
    physical_zipcode := physical_zipcode, select_state_value := select_state_value,
    mailing_street1 := physical_street1, mailing_street2 := physical_street2,
    mailing_city := physical_city, mailing_state := physical_state,
    mailing_zipcode := physical_zipcode, phone_number := phone_number }

/-! ## Theorems -/

/-! ## Facts about the state table -/

set_option maxHeartbeats 4000000 in
set_option maxRecDepth 10000 in
/-- Per-entry facts about `state_mapping`: keys are non-empty, two-letter
keys map to themselves, values are fixed by uppercase-and-trim, values
are two letters, and looking up a key or a value hits its entry. -/
theorem state_mapping_facts :
    state_mapping.all (fun p =>
      (p.1 ≠ "" && (p.1.length ≠ 2 || p.1 == p.2)
        && (pyStrip (pyUpper p.2) == p.2) && p.2.length == 2
        && (stateLookup p.1 == some p.2) && (stateLookup p.2 == some p.2))) = true := by
  decide

/-- A successful table lookup lands in the table's range. -/
theorem state_lookup_mem {u v : String} (h : stateLookup u = some v) :
    v ∈ state_mapping.map Prod.snd := by
  unfold stateLookup at h
  cases hf : state_mapping.find? (fun p => p.1 == u) with
  | none => rw [hf] at h; simp at h
  | some p =>
      rw [hf] at h
      simp only [Option.map_some', Option.some.injEq] at h
      subst h
      exact List.mem_map_of_mem _ (List.mem_of_find?_eq_some hf)

/-- Unfolding of `select_state_value` on a non-empty input. -/
theorem select_state_value_some {s : String} (avail : List String) (h : s ≠ "") :
    select_state_value avail (some s)
      = match select_state_core avail (pyStrip (pyUpper s)) with
        | some v => v
        | none => "TX" := by
  show (match select_state_core avail (pyStrip (pyUpper (if s = "" then "TX" else s))) with
        | some v => v
        | none => "TX") = _
  rw [if_neg h]

/-- On a two-letter code from the table, the shared chain returns the
code exactly when it is an option value. -/
theorem select_state_core_code (avail : List String) {v : String}
    (hlv : stateLookup v = some v) :
    select_state_core avail v = if v ∈ avail then some v else none := by
  unfold select_state_core
  by_cases hcv : v ∈ avail
  · simp [hcv]
  · rw [if_neg hcv, hlv, if_neg hcv]
    simp [Option.orElse, if_neg hcv]

/-- The shared chain only ever returns option values. -/
theorem select_state_core_mem {avail : List String} {u v : String}
    (h : select_state_core avail u = some v) : v ∈ avail := by
  unfold select_state_core at h
  by_cases hcu : u ∈ avail
  · rw [if_pos hcu] at h
    cases h
    exact hcu
  · rw [if_neg hcu] at h
    cases hm : (stateLookup u).orElse (fun _ => stateLookup (stripParen u)) with
    | none => rw [hm] at h; cases h
    | some w =>
        rw [hm] at h
        have h' : (if w ∈ avail then some w else none) = some v := h
        by_cases hcw : w ∈ avail
        · rw [if_pos hcw] at h'
          cases h'
          exact hcw
        · rw [if_neg hcw] at h'
          cases h'

/-- The shared chain fails on inputs that are neither option values nor
mapped, directly or after stripping the parenthetical suffix. -/
theorem select_state_core_none {avail : List String} {u : String}
    (h1 : u ∉ avail) (h2 : stateLookup u = none)
    (h3 : stateLookup (stripParen u) = none) :
    select_state_core avail u = none := by
  unfold select_state_core
  rw [if_neg h1, h2, h3]
  rfl

/-- An empty input is replaced by `"TX"` and always resolves to `"TX"`
in the src/main.py variant. -/
theorem select_state_value_empty (avail : List String) :
    select_state_value avail (some "") = "TX" := by
  have hfix : pyStrip (pyUpper "TX") = "TX" := rfl
  have hlv : stateLookup "TX" = some "TX" := by decide
  show (match select_state_core avail (pyStrip (pyUpper "TX")) with
        | some v => v
        | none => "TX") = "TX"
  rw [hfix, select_state_core_code avail hlv]
  by_cases hc : "TX" ∈ avail
  · rw [if_pos hc]
  · rw [if_neg hc]

/-- C1: for every state designation equal to a table key — a full state
name, a two-letter abbreviation, or the "NAME (XX)" form — in any
letter case and with surrounding whitespace (`pyStrip (pyUpper s) = k`),
the normalization of `select_state` resolves it to the same two-letter
code as the bare code `v`, by uppercasing and trimming, accepting a
valid option value directly, and otherwise looking up the original and
parenthetical-stripped forms in `state_mapping`; when the code is one
of the control's option values the common result is the code itself. -/
theorem select_state_table_equiv
    (avail : List String) (h2 : ∀ a ∈ avail, a.length = 2)
    (k v s : String) (hkv : (k, v) ∈ state_mapping)
    (hs : pyStrip (pyUpper s) = k) :
    select_state_value avail (some s) = select_state_value avail (some v)
      ∧ (v ∈ avail → select_state_value avail (some v) = v) := by
  have hall := List.all_eq_true.mp state_mapping_facts _ hkv
  simp only [Bool.and_eq_true, beq_iff_eq, ne_eq, decide_eq_true_eq, Bool.or_eq_true] at hall
  obtain ⟨⟨⟨⟨⟨hk0, hk2v⟩, hvfix⟩, hv2⟩, hlk⟩, hlv⟩ := hall
  have hs0 : s ≠ "" := by
    intro h
    subst h
    have he : pyStrip (pyUpper "") = "" := rfl
    rw [he] at hs
    exact hk0 hs.symm
  have hv0 : v ≠ "" := by
    intro h
    rw [h] at hv2
    simp at hv2
  have hcore_v : select_state_core avail v = if v ∈ avail then some v else none :=
    select_state_core_code avail hlv
  rw [select_state_value_some avail hs0, select_state_value_some avail hv0, hs, hvfix, hcore_v]
  have hcore_k : select_state_core avail k = if v ∈ avail then some v else none := by
    unfold select_state_core
    by_cases hck : k ∈ avail
    · have hkv2 : k = v := by
        cases hk2v with
        | inl h => exact absurd (h2 k hck) h
        | inr h => exact h
      subst hkv2
      rw [if_pos hck, if_pos hck]
    · rw [if_neg hck, hlk]
      simp [Option.orElse]
  rw [hcore_k]
  constructor
  · rfl
  · intro hcv
    rw [if_pos hcv]

/-- Witness for C1 at the table entry ("TEXAS", "TX") and the input
`"  texas "`. -/
theorem select_state_table_equiv_witness :
    select_state_value ["TX", "CA"] (some "  texas ") = select_state_value ["TX", "CA"] (some "TX")
      ∧ select_state_value ["TX", "CA"] (some "TX") = "TX" :=
  have h := select_state_table_equiv ["TX", "CA"] (by decide) "TEXAS" "TX" "  texas "
    (by decide) (by decide)
  ⟨h.1, h.2 (by decide)⟩

/-- C5: a state string that is neither an option value nor mapped by
the table (directly or after stripping the parenthetical suffix) makes
the src/main.py variant fall back to `"TX"` and the src/main_FAST.py
variant fail; moreover the src/main.py variant always returns an option
value or a table code, and the src/main_FAST.py variant only ever
returns option values. -/
theorem select_state_unmappable
    (avail : List String) (s : String)
    (h1 : pyStrip (pyUpper s) ∉ avail)
    (h2 : stateLookup (pyStrip (pyUpper s)) = none)
    (h3 : stateLookup (stripParen (pyStrip (pyUpper s))) = none) :
    select_state_value avail (some s) = "TX"
      ∧ select_state_value_fast avail (some s) = none
      ∧ (∀ (avail' : List String) (ps : Option String),
            select_state_value avail' ps ∈ avail'
              ∨ select_state_value avail' ps ∈ state_mapping.map Prod.snd)
      ∧ (∀ (avail' : List String) (ps : Option String) (v : String),
            select_state_value_fast avail' ps = some v → v ∈ avail') := by
  have hcore : ∀ s', s' ≠ "" → pyStrip (pyUpper s') = pyStrip (pyUpper s) →
      select_state_core avail (pyStrip (pyUpper s')) = none := by
    intro s' _ he
    rw [he]
    exact select_state_core_none h1 h2 h3
  refine ⟨?_, ?_, ?_, ?_⟩
  · by_cases hs0 : s = ""
    · subst hs0
      exact select_state_value_empty avail
    · rw [select_state_value_some avail hs0, hcore s hs0 rfl]
  · by_cases hs0 : s = ""
    · subst hs0
      rfl
    · show (if s = "" then none
            else select_state_core avail (pyStrip (pyUpper s))) = none
      rw [if_neg hs0]
      exact hcore s hs0 rfl
  · intro avail' ps
    cases ps with
    | none =>
        show ((match select_state_core avail' (pyStrip (pyUpper "TX")) with
               | some v => v
               | none => "TX") ∈ avail')
          ∨ ((match select_state_core avail' (pyStrip (pyUpper "TX")) with
              | some v => v
              | none => "TX") ∈ state_mapping.map Prod.snd)
        cases hc : select_state_core avail' (pyStrip (pyUpper "TX")) with
        | some v => exact Or.inl (select_state_core_mem hc)
        | none =>
            right
            show "TX" ∈ state_mapping.map Prod.snd
            decide
    | some t =>
        show ((match select_state_core avail'
                 (pyStrip (pyUpper (if t = "" then "TX" else t))) with
               | some v => v
               | none => "TX") ∈ avail')
          ∨ ((match select_state_core avail'
                 (pyStrip (pyUpper (if t = "" then "TX" else t))) with
              | some v => v
              | none => "TX") ∈ state_mapping.map Prod.snd)
        cases hc : select_state_core avail'
            (pyStrip (pyUpper (if t = "" then "TX" else t))) with
        | some v => exact Or.inl (select_state_core_mem hc)
        | none =>
            right
            show "TX" ∈ state_mapping.map Prod.snd
            decide
  · intro avail' ps v hv
    cases ps with
    | none => cases hv
    | some t =>
        have hv' : (if t = "" then none
            else select_state_core avail' (pyStrip (pyUpper t))) = some v := hv
        by_cases ht : t = ""
        · rw [if_pos ht] at hv'
          cases hv'
        · rw [if_neg ht] at hv'
          exact select_state_core_mem hv'

/-- Witness for C5 at the unmappable input `"Atlantis"`. -/
theorem select_state_unmappable_witness :
    select_state_value ["TX", "CA"] (some "Atlantis") = "TX"
      ∧ select_state_value_fast ["TX", "CA"] (some "Atlantis") = none :=
  have h := select_state_unmappable ["TX", "CA"] "Atlantis"
    (by decide) (by decide) (by decide)
  ⟨h.1, h.2.1⟩


/-! ## Legal-business-name cleaning (C3) -/

/-- C3 is corrected: the loop strips several suffixes, not just the
first match. On "X Inc Corp" the spec's first-match-only reading stops
after removing "Corp", but the code also removes "Inc". -/
theorem legal_name_first_match_counterexample :
    cleanLegalName "X Inc Corp" = "X"
      ∧ cleanLegalNameSpec "X Inc Corp" = "X Inc"
      ∧ cleanLegalName "X Inc Corp" ≠ cleanLegalNameSpec "X Inc Corp" := by decide

/-- C3 (amended): the cleaning strips the tokens Corp, Inc, LLC, LC,
PLLC, PA in that fixed order, each at most once and each tested against
the name left by the previous strips (so several suffixes can be
removed), then removes the disallowed characters; a trimmed name
matching no token is left unchanged by the suffix phase, and the spec's
examples hold. -/
theorem legal_name_cleaning (name : String)
    (hnone : ∀ e ∈ endings_to_remove,
        pyEndsWith (pyUpper (pyStrip name)) (pyUpper e) = false) :
    stripEndings name = pyStrip name
      ∧ cleanLegalName "Example Holdings, LLC" = "Example Holdings"
      ∧ cleanLegalName "Acme Corp" = "Acme"
      ∧ cleanLegalName "X Inc Corp" = "X" := by
  refine ⟨?_, by decide, by decide, by decide⟩
  have step : ∀ (cur e : String), pyEndsWith (pyUpper cur) (pyUpper e) = false →
      stripEnding cur e = cur := by
    intro cur e he
    simp [stripEnding, he]
  have h1 := step _ "Corp" (hnone "Corp" (by simp [endings_to_remove]))
  have h2 := step _ "Inc" (hnone "Inc" (by simp [endings_to_remove]))
  have h3 := step _ "LLC" (hnone "LLC" (by simp [endings_to_remove]))
  have h4 := step _ "LC" (hnone "LC" (by simp [endings_to_remove]))
  have h5 := step _ "PLLC" (hnone "PLLC" (by simp [endings_to_remove]))
  have h6 := step _ "PA" (hnone "PA" (by simp [endings_to_remove]))
  unfold stripEndings endings_to_remove
  simp only [List.foldl]
  rw [h1, h2, h3, h4, h5, h6]

/-- Witness for C3 at a name with no corporate suffix. -/
theorem legal_name_cleaning_witness :
    stripEndings "Acme Widgets" = pyStrip "Acme Widgets"
      ∧ cleanLegalName "Acme Corp" = "Acme" :=
  have h := legal_name_cleaning "Acme Widgets" (by decide)
  ⟨h.1, h.2.2.1⟩

/-! ## Formation-date parsing (C4, C6) -/

/-- C4: the date resolution tries exactly the formats `%Y-%m-%d`,
`%m/%d/%Y`, `%Y/%m/%d` in that order on the trimmed input and the first
format that parses wins; in particular "2024-06-24" and "06/24/2024"
both resolve to month 6 and year 2024, in both variants. -/
theorem formation_date_parsing :
    (∀ s d, parseFormationDate s = some d
        ↔ (parseYMDdash (pyStrip s) = some d
            ∨ (parseYMDdash (pyStrip s) = none ∧ parseMDYslash (pyStrip s) = some d)
            ∨ (parseYMDdash (pyStrip s) = none ∧ parseMDYslash (pyStrip s) = none
                ∧ parseYMDslash (pyStrip s) = some d)))
      ∧ formationDateStepMain "2024-06-24" = .set 6 2024
      ∧ formationDateStepMain "06/24/2024" = .set 6 2024
      ∧ formationDateStepFast "2024-06-24" = .set 6 2024
      ∧ formationDateStepFast "06/24/2024" = .set 6 2024 := by
  refine ⟨?_, by decide, by decide, by decide, by decide⟩
  intro s d
  show ((parseYMDdash (pyStrip s)).orElse
      (fun _ => (parseMDYslash (pyStrip s)).orElse (fun _ => parseYMDslash (pyStrip s)))
        = some d) ↔ _
  cases h1 : parseYMDdash (pyStrip s) with
  | some d1 => simp [Option.orElse]
  | none =>
      cases h2 : parseMDYslash (pyStrip s) with
      | some d2 => simp [Option.orElse]
      | none => simp [Option.orElse]

/-- C6 is corrected: on an unparseable formation date the
src/main_FAST.py variant does not abort the run; the `ValueError` it
raises is caught by the step's own `except` handler and the run
continues with the date controls unset. -/
theorem formation_unmatched_counterexample :
    formationDateStepFast "not-a-date" = .skippedAndContinued
      ∧ formationDateStepFast "not-a-date" ≠ .abortedRun := by decide

/-- C6 (amended): on an input matching none of the three formats,
src/main.py substitutes the default date 2024-06-24 (month 6, year
2024) and continues, while src/main_FAST.py abandons only the
formation-date step — the raised `ValueError` is caught by the step's
handler and the run continues with the month/year controls unset. -/
theorem formation_unmatched_variants (s : String)
    (h : parseFormationDate s = none) :
    formationDateStepMain s = .set 6 2024
      ∧ formationDateStepFast s = .skippedAndContinued := by
  unfold formationDateStepMain formationDateStepFast
  rw [h]
  exact ⟨rfl, rfl⟩

/-- Witness for C6 at the unparseable input `"garbage"`. -/
theorem formation_unmatched_variants_witness :
    formationDateStepMain "garbage" = .set 6 2024
      ∧ formationDateStepFast "garbage" = .skippedAndContinued :=
  formation_unmatched_variants "garbage" (by decide)


/-! ## Confirmation map and polling loop (C7) -/

/-- Reading a key right after writing it returns the written value. -/
theorem readConfirmation_write_self (st : List (String × Bool)) (id : String) (b : Bool) :
    readConfirmation (writeConfirmation st id b) id = some b := by
  induction st with
  | nil => simp [writeConfirmation, readConfirmation, List.find?]
  | cons p rest ih =>
      by_cases h : p.1 = id
      · simp [writeConfirmation, h, readConfirmation, List.find?]
      · unfold writeConfirmation
        rw [if_neg h]
        unfold readConfirmation
        unfold readConfirmation at ih
        simp only [List.find?]
        have : (p.1 == id) = false := beq_false_of_ne h
        rw [this]
        exact ih

/-- Writing one key leaves reads of another unchanged. -/
theorem readConfirmation_write_other (st : List (String × Bool)) {id id' : String}
    (b : Bool) (h : id' ≠ id) :
    readConfirmation (writeConfirmation st id' b) id = readConfirmation st id := by
  induction st with
  | nil =>
      simp [writeConfirmation, readConfirmation, List.find?, beq_false_of_ne h]
  | cons p rest ih =>
      by_cases hp : p.1 = id'
      · unfold writeConfirmation
        rw [if_pos hp]
        unfold readConfirmation
        simp only [List.find?]
        rw [beq_false_of_ne h, show (p.1 == id) = false from beq_false_of_ne (hp ▸ h)]
      · unfold writeConfirmation
        rw [if_neg hp]
        unfold readConfirmation
        unfold readConfirmation at ih
        simp only [List.find?]
        cases hm : (p.1 == id) with
        | true => rfl
        | false => exact ih

/-- Reading after a write sequence returns the last write for the key,
falling back to the initial store. -/
theorem readConfirmation_applyWrites (ws : List (String × Bool)) :
    ∀ (st : List (String × Bool)) (id : String),
      readConfirmation (applyWrites st ws) id
        = match lastWriteFor ws id with
          | some b => some b
          | none => readConfirmation st id := by
  induction ws using List.reverseRecOn with
  | nil => intro st id; simp [applyWrites, lastWriteFor]
  | append_singleton ws w ih =>
      intro st id
      have happ : applyWrites st (ws ++ [w]) = writeConfirmation (applyWrites st ws) w.1 w.2 := by
        simp [applyWrites]
      rw [happ]
      by_cases hw : w.1 = id
      · have hlast : lastWriteFor (ws ++ [w]) id = some w.2 := by
          simp [lastWriteFor, List.find?, beq_iff_eq, hw]
        rw [hlast]
        show readConfirmation (writeConfirmation (applyWrites st ws) w.1 w.2) id = some w.2
        rw [hw]
        exact readConfirmation_write_self _ id w.2
      · have hlast : lastWriteFor (ws ++ [w]) id = lastWriteFor ws id := by
          simp [lastWriteFor, List.find?, beq_false_of_ne hw]
        rw [hlast, readConfirmation_write_other _ w.2 hw, ih]

/-- If every poll inside the loop fails, the loop returns `none`. -/
theorem waitLoop_none (poll : Nat → Option Bool) :
    ∀ (fuel tick : Nat), (∀ t, tick ≤ t → t < tick + fuel → poll t = none) →
      waitLoop poll tick fuel = none := by
  intro fuel
  induction fuel with
  | zero => intro tick _; rfl
  | succ fuel ih =>
      intro tick h
      unfold waitLoop
      rw [h tick (Nat.le_refl _) (by omega)]
      exact ih (tick + 1) (fun t ht1 ht2 => h t (by omega) (by omega))

/-- The loop returns the first successful poll within the deadline. -/
theorem waitLoop_first_hit (poll : Nat → Option Bool) :
    ∀ (fuel tick t : Nat) (b : Bool), tick ≤ t → t < tick + fuel →
      (∀ u, tick ≤ u → u < t → poll u = none) → poll t = some b →
      waitLoop poll tick fuel = some b := by
  intro fuel
  induction fuel with
  | zero => intro tick t b h1 h2; omega
  | succ fuel ih =>
      intro tick t b h1 h2 hnone hb
      unfold waitLoop
      by_cases he : tick = t
      · rw [he, hb]
      · rw [hnone tick (Nat.le_refl _) (by omega)]
        exact ih (tick + 1) t b (by omega) (by omega)
          (fun u hu1 hu2 => hnone u (by omega) hu2) hb

/-- C7: the confirmation map returns the most recently written proceed
value for an identifier — later writes for the same formId overwrite
earlier ones — and when no value is ever written for it within the
deadline, the polling loop deterministically times out after the
configured 300 seconds of 5-second polls; a value written before some
poll within the deadline is returned to the waiting handler. -/
theorem confirmation_map_behavior :
    (∀ (st : List (String × Bool)) (ws : List (String × Bool)) (id : String) (b : Bool),
        lastWriteFor ws id = some b →
        readConfirmation (applyWrites st ws) id = some b)
      ∧ (∀ poll : Nat → Option Bool,
          (∀ t, t < confirmationTimeout / confirmationInterval → poll t = none) →
          waitForConfirmation poll = none)
      ∧ (∀ (poll : Nat → Option Bool) (t : Nat) (b : Bool),
          t < confirmationTimeout / confirmationInterval →
          (∀ u, u < t → poll u = none) → poll t = some b →
          waitForConfirmation poll = some b) := by
  refine ⟨?_, ?_, ?_⟩
  · intro st ws id b hlast
    rw [readConfirmation_applyWrites ws st id, hlast]
  · intro poll h
    exact waitLoop_none poll _ 0 (fun t ht1 ht2 => h t (by omega))
  · intro poll t b ht hnone hb
    exact waitLoop_first_hit poll _ 0 t b (Nat.zero_le _) (by omega)
      (fun u _ hu => hnone u hu) hb

/-- Witness for C7: two writes for the same formId, the second winning;
a poll that never succeeds timing out; a poll succeeding at tick 3. -/
theorem confirmation_map_behavior_witness :
    readConfirmation (applyWrites [] [("f1", false), ("f1", true)]) "f1" = some true
      ∧ waitForConfirmation (fun _ => none) = none
      ∧ waitForConfirmation (fun t => if t = 3 then some true else none) = some true :=
  ⟨confirmation_map_behavior.1 [] [("f1", false), ("f1", true)] "f1" true (by decide),
   confirmation_map_behavior.2.1 (fun _ => none) (fun t _ => rfl),
   confirmation_map_behavior.2.2 (fun t => if t = 3 then some true else none) 3 true
     (by decide) (by decide) (by decide)⟩

/-! ## Field-resolution prelude (C8) -/

/-- C8: a request in which every optional field is absent resolves
without error, to exactly the documented defaults for name, SSN, entity
type, dates, address, state, zip, phone, business category and
description. -/
theorem resolve_all_missing_defaults (rid : String) :
    resolveFields { record_id := rid } = .ok {
      first_name := "Rob", last_name := "Chuchla",
      ssn_decrypted := "123456789", ssn_last_four := "6789",
      ssn_first_three := "123", ssn_middle_two := "45",
      entity_type := "Limited Liability Company (LLC)",
      quarter_of_first_payroll := "03/31/2025", formation_date := "2024-06-24",
      business_category := "Finance", business_description := "Financial services",
      legal_business_name := "Lane Four Capital Partners LLC",
      physical_street1 := "3315 Cherry Ln", physical_street2 := "",
      physical_city := "Austin", physical_state := "TX", physical_zipcode := "78703",
      select_state_value := "TX",
      mailing_street1 := "3315 Cherry Ln", mailing_street2 := "",
      mailing_city := "Austin", mailing_state := "TX", mailing_zipcode := "78703",
      phone_number := "2812173123" } := rfl


/-! ## Character-level lemmas for `normKey` (C2) -/

/-- `Char.toNat` of `Char.ofNat` for small codepoints. -/
theorem toNat_ofNat_small {n : Nat} (h : n < 256) : (Char.ofNat n).toNat = n := by
  have hv : n.isValidChar := Or.inl (by omega)
  rw [Char.ofNat, dif_pos hv]
  simp [Char.toNat, Char.ofNatAux, UInt32.ofNat', UInt32.toNat]

/-- `Char.toLower` is idempotent. -/
theorem toLower_toLower (c : Char) : c.toLower.toLower = c.toLower := by
  by_cases h : 65 ≤ c.toNat ∧ c.toNat ≤ 90
  · have h1 : c.toLower = Char.ofNat (c.toNat + 32) := by
      simp only [Char.toLower]
      rw [if_pos h]
    rw [h1]
    simp only [Char.toLower]
    rw [toNat_ofNat_small (by omega), if_neg (by omega)]
  · have h1 : c.toLower = c := by
      simp only [Char.toLower]
      rw [if_neg h]
    rw [h1, h1]

/-- One normalization step is idempotent character-wise. -/
theorem norm_char_idem (c : Char) :
    (if (if c.toLower = ' ' then '_' else c.toLower).toLower = ' ' then '_'
     else (if c.toLower = ' ' then '_' else c.toLower).toLower)
      = if c.toLower = ' ' then '_' else c.toLower := by
  by_cases h : c.toLower = ' '
  · rw [h]
    decide
  · simp only [if_neg h, toLower_toLower]
    try rw [if_neg h]

/-- `normKey` distributes over append. -/
theorem normKey_append (a b : String) : normKey (a ++ b) = normKey a ++ normKey b := by
  cases a with
  | mk la =>
      cases b with
      | mk lb =>
          show normKey ⟨la ++ lb⟩ = _
          simp only [normKey, List.map_append]
          rfl

/-- `normKey` is idempotent. -/
theorem normKey_idem (s : String) : normKey (normKey s) = normKey s := by
  cases s with
  | mk l =>
      simp only [normKey, List.map_map]
      congr 1
      apply List.map_congr_left
      intro c _
      exact norm_char_idem c

/-- Strings whose characters are lowercase and not spaces are fixed by
`normKey`. -/
theorem normKey_fixed_of {s : String} (h : ∀ c ∈ s.data, c.toLower = c ∧ c ≠ ' ') :
    normKey s = s := by
  cases s with
  | mk l =>
      simp only [normKey, List.map_map]
      congr 1
      have hl : ∀ c ∈ l, c.toLower = c ∧ c ≠ ' ' := h
      calc l.map ((fun c => if c = ' ' then '_' else c) ∘ Char.toLower)
          = l.map id := by
            apply List.map_congr_left
            intro c hc
            obtain ⟨h1, h2⟩ := hl c hc
            simp [Function.comp, h1, h2]
        _ = l := List.map_id l

/-- The characters emitted by `Nat.digitChar` are lowercase non-spaces. -/
theorem digitChar_norm (n : Nat) :
    (Nat.digitChar n).toLower = Nat.digitChar n ∧ Nat.digitChar n ≠ ' ' := by
  by_cases h : n < 16
  · interval_cases n <;> decide
  · have hs : Nat.digitChar n = '*' := by
      unfold Nat.digitChar
      repeat rw [if_neg (by omega)]
    rw [hs]
    decide

/-- The characters emitted by `Nat.toDigitsCore` are lowercase
non-spaces, given the same about the accumulator. -/
theorem toDigitsCore_norm (b : Nat) :
    ∀ (f n : Nat) (l : List Char),
      (∀ c ∈ l, c.toLower = c ∧ c ≠ ' ') →
      ∀ c ∈ Nat.toDigitsCore b f n l, c.toLower = c ∧ c ≠ ' ' := by
  intro f
  induction f with
  | zero =>
      intro n l hl
      simpa [Nat.toDigitsCore] using hl
  | succ f ih =>
      intro n l hl c hc
      simp only [Nat.toDigitsCore] at hc
      by_cases h : n / b = 0
      · rw [if_pos h] at hc
        rcases List.mem_cons.mp hc with h1 | h1
        · rw [h1]
          exact digitChar_norm _
        · exact hl c h1
      · rw [if_neg h] at hc
        refine ih (n / b) (Nat.digitChar (n % b) :: l) ?_ c hc
        intro x hx
        rcases List.mem_cons.mp hx with h1 | h1
        · rw [h1]
          exact digitChar_norm _
        · exact hl x h1

/-- Decimal representations of naturals are fixed by `normKey`. -/
theorem normKey_toString_nat (i : Nat) : normKey (toString i) = toString i := by
  apply normKey_fixed_of
  intro c hc
  have hdata : (toString i).data = Nat.toDigitsCore 10 (i + 1) i [] := rfl
  rw [hdata] at hc
  exact toDigitsCore_norm 10 (i + 1) i [] (by intro x hx; cases hx) c hc



/-! ## Keys produced by `flatten_json` (C2) -/

mutual

/-- Every key emitted by `flattenJson` under a `normKey`-fixed parent
key is itself fixed by `normKey` (lower-cased, spaces replaced). -/
theorem flattenJson_keys : ∀ (fields : List (String × Json)) (parent : String),
    normKey parent = parent →
    ∀ kv ∈ flattenJson fields parent "_", normKey kv.1 = kv.1
  | [], parent => by
      intro hp kv hkv
      simp [flattenJson] at hkv
  | (k, v) :: rest, parent => by
      intro hp kv hkv
      have hnk : normKey (if _h : parent = "" then normKey k
          else parent ++ "_" ++ normKey k)
          = (if _h : parent = "" then normKey k else parent ++ "_" ++ normKey k) := by
        by_cases hpe : parent = ""
        · rw [dif_pos hpe]
          exact normKey_idem k
        · rw [dif_neg hpe]
          rw [normKey_append, normKey_append, hp, normKey_idem]
          rw [show normKey "_" = "_" from rfl]
      cases v with
      | null =>
          simp only [flattenJson] at hkv
          rcases List.mem_append.mp hkv with h | h
          · rw [List.mem_singleton.mp h]
            exact hnk
          · exact flattenJson_keys rest parent hp kv h
      | bool b =>
          simp only [flattenJson] at hkv
          rcases List.mem_append.mp hkv with h | h
          · rw [List.mem_singleton.mp h]
            exact hnk
          · exact flattenJson_keys rest parent hp kv h
      | num n =>
          simp only [flattenJson] at hkv
          rcases List.mem_append.mp hkv with h | h
          · rw [List.mem_singleton.mp h]
            exact hnk
          · exact flattenJson_keys rest parent hp kv h
      | str s =>
          simp only [flattenJson] at hkv
          rcases List.mem_append.mp hkv with h | h
          · rw [List.mem_singleton.mp h]
            exact hnk
          · exact flattenJson_keys rest parent hp kv h
      | obj fs =>
          simp only [flattenJson] at hkv
          rcases List.mem_append.mp hkv with h | h
          · exact flattenJson_keys fs _ hnk kv h
          · exact flattenJson_keys rest parent hp kv h
      | arr xs =>
          simp only [flattenJson] at hkv
          rcases List.mem_append.mp hkv with h | h
          · exact flattenArr_keys _ 0 xs hnk kv h
          · exact flattenJson_keys rest parent hp kv h
termination_by fields _ => fsize fields
decreasing_by
  all_goals simp [fsize, jsize, lsize]
  all_goals omega

/-- Every key emitted by the `enumerate` loop under a `normKey`-fixed
new-key prefix is fixed by `normKey`. -/
theorem flattenArr_keys : ∀ (nk : String) (i : Nat) (xs : List Json),
    normKey nk = nk →
    ∀ kv ∈ flattenArr nk "_" i xs, normKey kv.1 = kv.1
  | _, _, [] => by
      intro hnk kv hkv
      simp [flattenArr] at hkv
  | nk, i, x :: xs => by
      intro hnk kv hkv
      simp only [flattenArr] at hkv
      rcases List.mem_append.mp hkv with h | h
      · exact flattenJson_keys [(nk ++ "_" ++ toString i, x)] "" rfl kv h
      · exact flattenArr_keys nk (i + 1) xs hnk kv h
termination_by _ _ xs => lsize xs + 1
decreasing_by
  all_goals simp [fsize, jsize, lsize]
  all_goals omega

end



/-- C2: `flatten_json` flattens a nested object into a single-level
item list in which list elements become `<key>_<index>` entries and
every emitted key is lower-cased with spaces replaced by underscores
(it is a fixed point of the key normalization); in particular,
flattening `{"a": {"b": 1}, "c": [2,3]}` yields exactly
`{"a_b": 1, "c_0": 2, "c_1": 3}`. -/
theorem flatten_json_spec :
    flattenJson [("a", Json.obj [("b", Json.num 1)]),
        ("c", Json.arr [Json.num 2, Json.num 3])] "" "_"
        = [("a_b", Json.num 1), ("c_0", Json.num 2), ("c_1", Json.num 3)]
      ∧ (∀ (fields : List (String × Json)) (parent : String),
          normKey parent = parent →
          ∀ kv ∈ flattenJson fields parent "_", normKey kv.1 = kv.1) := by
  constructor
  · simp only [flattenJson, flattenArr]
    norm_num
    refine ⟨?_, ?_, ?_⟩ <;> decide
  · intro fields parent hp
    exact flattenJson_keys fields parent hp

/-- Witness for C2's key-normalization clause at the field list
`[("A b", null)]`, whose flattening emits the key `"a_b"`. -/
theorem flatten_json_spec_witness :
    normKey "" = "" ∧ normKey "a_b" = "a_b" :=
  ⟨rfl, flatten_json_spec.2 [("A b", Json.null)] "" rfl ("a_b", Json.null)
    (by
      have h1 : flattenJson [("A b", Json.null)] "" "_" = [(normKey "A b", Json.null)] := by
        simp [flattenJson]
      have h2 : normKey "A b" = "a_b" := by decide
      rw [h1, h2]
      exact List.mem_singleton.mpr rfl)⟩


/-! ## `parse_summary_html` (C9) -/

/-- C9 is corrected: the empty string contains no markup (no `'<'`) but
is falsy in Python, so `parse_summary_html` returns `None` for it, not
`{'Summary': ''}`. -/
theorem parse_summary_empty_counterexample :
    parse_summary_html (some "") [] = none
      ∧ parse_summary_html (some "") [] ≠ some [("Summary", pyStrip "")] := by decide

/-- C9 (amended): a present NON-EMPTY input without a `'<'` character
maps to the single-entry mapping `{'Summary': stripped input}`, while
absent or empty input maps to `None`; div elements styled
`padding-left: 5px;` contribute `key: value` pairs split at the first
colon with `"strong"` removed from the key and both sides stripped — in
particular the spec's concrete div example yields `{"Name": "Acme"}`. -/
theorem parse_summary_html_spec (s : String) (doc : List HtmlElement)
    (hne : s ≠ "") (hnm : pyContains s "<" = false) :
    parse_summary_html (some s) doc = some [("Summary", pyStrip s)]
      ∧ parse_summary_html none doc = none
      ∧ parse_summary_html (some "") doc = none
      ∧ parse_summary_html
          (some "<div style=\"padding-left: 5px;\">strong Name: Acme</div>")
          [{ tag := "div", style := some "padding-left: 5px;",
             text := "strong Name: Acme" }]
          = some [("Name", "Acme")] := by
  refine ⟨?_, rfl, rfl, by decide⟩
  show (if s = "" then none
        else if !(pyContains s "<") then some [("Summary", pyStrip s)]
        else _) = _
  rw [if_neg hne, hnm]
  rfl

/-- Witness for C9 at the markup-free input `"just text"`. -/
theorem parse_summary_html_spec_witness :
    parse_summary_html (some "just text") [] = some [("Summary", pyStrip "just text")] :=
  (parse_summary_html_spec "just text" [] (by decide) (by decide)).1

/-! ## `determine_number_of_members` (C10) -/

mutual

/-- A JSON value with no responsible-party key collects no parties. -/
theorem collect_no_resp : ∀ (j : Json),
    hasRespKey j = false → collectParties j = some []
  | .null => by intro _; simp [collectParties]
  | .bool b => by intro _; simp [collectParties]
  | .num n => by intro _; simp [collectParties]
  | .str s => by intro _; simp [collectParties]
  | .arr xs => by
      intro h
      simp only [hasRespKey] at h
      simp only [collectParties]
      rw [collect_no_resp_list xs h]
  | .obj fs => by
      intro h
      simp only [hasRespKey] at h
      simp only [collectParties]
      rw [collect_no_resp_fields fs h]

/-- Field-list version of `collect_no_resp`. -/
theorem collect_no_resp_fields : ∀ (fields : List (String × Json)),
    hasRespKeyFields fields = false → collectPartiesFields fields = some []
  | [] => by intro _; simp [collectPartiesFields]
  | (k, v) :: rest => by
      intro h
      simp only [hasRespKeyFields, Bool.or_eq_false_iff] at h
      obtain ⟨⟨hk, hv⟩, hrest⟩ := h
      simp only [collectPartiesFields]
      rw [show partyNumOfKey k = some [] from by simp [partyNumOfKey, hk]]
      rw [collect_no_resp v hv, collect_no_resp_fields rest hrest]
      rfl

/-- Element-list version of `collect_no_resp`. -/
theorem collect_no_resp_list : ∀ (xs : List Json),
    hasRespKeyList xs = false → collectPartiesList xs = some []
  | [] => by intro _; simp [collectPartiesList]
  | x :: xs => by
      intro h
      simp only [hasRespKeyList, Bool.or_eq_false_iff] at h
      simp only [collectPartiesList]
      rw [collect_no_resp x h.1, collect_no_resp_list xs h.2]
      rfl

end

/-- C10: `determine_number_of_members` is total and always lands in 1..4;
it returns exactly 2 on absent input, on malformed input, on JSON with no
key embedding "responsible party-", and when the highest collected party
number lies outside 1..4. -/
theorem members_range_and_defaults :
    (∀ inp, 1 ≤ determine_number_of_members inp ∧ determine_number_of_members inp ≤ 4)
      ∧ determine_number_of_members .missing = 2
      ∧ determine_number_of_members .malformed = 2
      ∧ (∀ j : Json, hasRespKey j = false →
          determine_number_of_members (.parsed j) = 2)
      ∧ (∀ (j : Json) (parties : List String) (m : Int),
          collectParties j = some parties → maxIntOfList parties = some m →
          (m < 1 ∨ 4 < m) → determine_number_of_members (.parsed j) = 2) := by
  refine ⟨?_, rfl, rfl, ?_, ?_⟩
  · intro inp
    cases inp with
    | missing => exact ⟨by decide, by decide⟩
    | malformed => exact ⟨by decide, by decide⟩
    | parsed j =>
        simp only [determine_number_of_members]
        cases collectParties j with
        | none => exact ⟨(by decide : (1 : Int) ≤ 2), (by decide : (2 : Int) ≤ 4)⟩
        | some parties =>
            cases parties with
            | nil => exact ⟨(by decide : (1 : Int) ≤ 2), (by decide : (2 : Int) ≤ 4)⟩
            | cons p ps =>
                show (1 : Int) ≤ (match maxIntOfList (p :: ps) with
                      | none => (2 : Int)
                      | some m => if 1 ≤ m ∧ m ≤ 4 then m else (2 : Int))
                    ∧ (match maxIntOfList (p :: ps) with
                      | none => (2 : Int)
                      | some m => if 1 ≤ m ∧ m ≤ 4 then m else (2 : Int)) ≤ (4 : Int)
                cases maxIntOfList (p :: ps) with
                | none => exact ⟨(by decide : (1 : Int) ≤ 2), (by decide : (2 : Int) ≤ 4)⟩
                | some m =>
                    show (1 : Int) ≤ (if 1 ≤ m ∧ m ≤ 4 then m else (2 : Int))
                        ∧ (if 1 ≤ m ∧ m ≤ 4 then m else (2 : Int)) ≤ (4 : Int)
                    by_cases hm : 1 ≤ m ∧ m ≤ 4
                    · rw [if_pos hm]
                      exact hm
                    · rw [if_neg hm]
                      exact ⟨(by decide : (1 : Int) ≤ 2), (by decide : (2 : Int) ≤ 4)⟩
  · intro j h
    simp only [determine_number_of_members]
    rw [collect_no_resp j h]
  · intro j parties m hc hm hout
    simp only [determine_number_of_members]
    rw [hc]
    cases parties with
    | nil => simp [maxIntOfList] at hm
    | cons p ps =>
        show (match maxIntOfList (p :: ps) with
              | none => (2 : Int)
              | some m => if 1 ≤ m ∧ m ≤ 4 then m else (2 : Int)) = (2 : Int)
        rw [hm]
        show (if 1 ≤ m ∧ m ≤ 4 then m else (2 : Int)) = (2 : Int)
        rw [if_neg (by omega)]

/-- Witness for C10 at a JSON object without responsible-party keys and
at one whose highest party number is 7. -/
theorem members_range_witness :
    determine_number_of_members (.parsed (Json.obj [("x", Json.null)])) = 2
      ∧ determine_number_of_members
          (.parsed (Json.obj [("Responsible Party-7 A", Json.null)])) = 2 :=
  ⟨members_range_and_defaults.2.2.2.1 (Json.obj [("x", Json.null)])
      (by simp [hasRespKey, hasRespKeyFields, hasRespKeyList]; decide),
   members_range_and_defaults.2.2.2.2 (Json.obj [("Responsible Party-7 A", Json.null)])
      ["7"] 7
      (by simp [collectParties, collectPartiesFields, collectPartiesList]; decide)
      (by decide) (by decide)⟩

end CorpnetIrs
